import Mathlib

/-!
Verification development for the MedGuard verification middleware
(frontend verification layer: `src/frontend/src/services/ai.ts`,
`src/frontend/src/hooks/use-bot-feed.ts`, and the polling bot-feed hook).

The TypeScript sources are shallowly embedded:

* `createdAt` strings are modelled by their epoch-millisecond value, the
  number the source compares with (`new Date(x).getTime()`).
* Freeform JSON metadata objects are modelled as ordered association lists
  from keys to a value that is either a string or some other JSON value;
  JavaScript object spread / `Map.set` update-or-append semantics are
  modelled by `assocSet`.
* The runtime value of the `role` field is modelled as `Option String`
  (the source checks it against the literals "user" / "assistant").
* External calls (`fetch` + JSON decoding) are modelled as explicit
  arguments: a successful call supplies a decoded value, a thrown error
  supplies its message (`Except String`).
* Report structures carry exactly the fields the verified functions read;
  fields no verified function inspects are elided.
-/

/-! ## Shared data model (`src/frontend/src/types/ai.ts`) -/

/-- `AIResponseStatus` from `types/ai.ts`:
`"pending" | "verifying" | "verified" | "warning" | "failed"`. -/
inductive AIResponseStatus where
  | pending
  | verifying
  | verified
  | warning
  | failed
deriving DecidableEq, Repr, Fintype

/-- A JSON value stored in a metadata object: either a string or anything
else (the sources only ever inspect string-typed entries). -/
inductive MetaValue where
  | str (s : String)
  | other
deriving DecidableEq, Repr

/-- A JavaScript object used as a string-keyed record, in key-insertion
order. -/
abbrev Metadata := List (String × MetaValue)

/-- Lookup of a key in an ordered string-keyed object / `Map`. -/
def assocGet {α : Type} (m : List (String × α)) (k : String) : Option α :=
  (m.find? (fun e => e.1 == k)).map (·.2)

/-- JavaScript `Map.set` / object-spread update: replace the value at an
existing key in place, otherwise append the new entry. -/
def assocSet {α : Type} (m : List (String × α)) (k : String) (v : α) :
    List (String × α) :=
  if m.any (fun e => e.1 == k) then
    m.map (fun e => if e.1 == k then (k, v) else e)
  else
    m ++ [(k, v)]

/-- `BotOutputPayload` from `types/ai.ts`: one raw feed entry.  `role` is
kept as the raw runtime string and `status` as an optional status, the way
the boundary code treats them. -/
structure BotOutputPayload where
  id : String
  prompt : Option String := none
  content : String := ""
  createdAt : Int := 0
  confidence : Option Int := none
  metadata : Option Metadata := none
  role : Option String := none
  status : Option AIResponseStatus := none
deriving DecidableEq, Repr

/-- `AIResponse` from `types/ai.ts`: a `BotOutputPayload` whose `status`
is mandatory. -/
structure AIResponse where
  id : String
  prompt : Option String := none
  content : String := ""
  createdAt : Int := 0
  confidence : Option Int := none
  metadata : Option Metadata := none
  role : Option String := none
  status : AIResponseStatus := .pending
deriving DecidableEq, Repr

/-- `CombinedAssessment` from `types/ai.ts`. -/
structure CombinedAssessment where
  overallRiskLevel : String
  riskFactors : List String
  recommendation : String
  hallucinationRisk : String
  complianceScore : Int
  complianceStatus : String
  summary : String
deriving DecidableEq, Repr

/-- The slice of `HallucinationAnalysisDetail` the verified functions
read (`riskLevel`); the remaining fields are elided. -/
structure HallucinationAnalysisDetail where
  riskLevel : String
deriving DecidableEq, Repr

/-- `HallucinationAnalysisResult`, restricted to its `detail`. -/
structure HallucinationAnalysisResult where
  detail : HallucinationAnalysisDetail
deriving DecidableEq, Repr

/-- The slice of `ComplianceAnalysisDetail` the verified functions read
(`overallStatus`); the remaining fields are elided. -/
structure ComplianceAnalysisDetail where
  overallStatus : String
deriving DecidableEq, Repr

/-- `ComplianceAnalysisResult`, restricted to its `detail`. -/
structure ComplianceAnalysisResult where
  detail : ComplianceAnalysisDetail
deriving DecidableEq, Repr

/-- `ComplianceReportAnalysis` from `types/ai.ts`. -/
structure ComplianceReportAnalysis where
  hallucinationAnalysis : HallucinationAnalysisResult
  complianceAnalysis : ComplianceAnalysisResult
  combinedAssessment : CombinedAssessment
deriving DecidableEq, Repr

/-- `ComplianceReport` from `types/ai.ts`, restricted to the `analysis`
part the verified functions read. -/
structure ComplianceReport where
  analysis : ComplianceReportAnalysis
deriving DecidableEq, Repr

/-- JavaScript `String.prototype.toUpperCase` on the ASCII vocabulary
strings the sources compare against. -/
def toUpperCase (s : String) : String :=
  ⟨s.data.map Char.toUpper⟩

/-- The risk-level vocabulary named by the external contract. -/
def riskLevelVocabulary : List String :=
  ["LOW", "MEDIUM", "HIGH", "CRITICAL"]

/-- The compliance-status vocabulary named by the external contract. -/
def complianceStatusVocabulary : List String :=
  ["COMPLIANT", "MOSTLY_COMPLIANT", "NEEDS_REVIEW", "NON_COMPLIANT"]

/-! ## `src/frontend/src/services/ai.ts` (transforming version) -/

namespace Ai

/-- Message of the error thrown by `handleResponse` on a non-ok HTTP
response: the response body text when truthy (non-empty), otherwise the
generated fallback.  Source: `throw new Error(message || ...)`. -/
def httpErrorMessage (status : Nat) (bodyText : String) : String :=
  if bodyText == "" then "Request failed with status " ++ toString status
  else bodyText

/-- `readMetadataString`: return `metadata[key]` when the metadata object
exists and holds a string there. -/
def readMetadataString (payload : BotOutputPayload) (key : String) :
    Option String :=
  match payload.metadata with
  | none => none
  | some metadata =>
    match assocGet metadata key with
    | some (.str value) => some value
    | _ => none

/-- `deriveRole`: the explicit `role` field when it is exactly "user" or
"assistant", else the metadata "role" entry under the same check, else
`none`. -/
def deriveRole (payload : BotOutputPayload) : Option String :=
  if payload.role = some "user" ∨ payload.role = some "assistant" then
    payload.role
  else
    match readMetadataString payload "role" with
    | some metadataRole =>
      if metadataRole = "user" ∨ metadataRole = "assistant" then
        some metadataRole
      else none
    | none => none

/-- `enrichBotOutputs` (transforming `ai.ts`): spread the payload, set
`role` to the derived role and `status` to the payload's own status when
present, else "pending" (the source's conditional has "pending" in both
branches). -/
def enrichBotOutputs (outputs : List BotOutputPayload) : List AIResponse :=
  outputs.map fun output =>
    let role := deriveRole output
    let status :=
      match output.status with
      | some s => s
      | none =>
        if role = some "assistant" then AIResponseStatus.pending
        else AIResponseStatus.pending
    { id := output.id
      prompt := output.prompt
      content := output.content
      createdAt := output.createdAt
      confidence := output.confidence
      metadata := output.metadata
      role := role
      status := status }

/-- The raw backend `combined_assessment` object: every field optional,
as `mapCombinedAssessment` reads it with `raw?.field ?? default`. -/
structure RawCombinedAssessment where
  overall_risk_level : Option String := none
  risk_factors : Option (List String) := none
  recommendation : Option String := none
  hallucination_risk : Option String := none
  compliance_score : Option Int := none
  compliance_status : Option String := none
  summary : Option String := none
deriving DecidableEq, Repr

/-- The raw `{}` passed when `raw?.analysis?.combined_assessment` is
absent. -/
def emptyRawCombinedAssessment : RawCombinedAssessment :=
  { }

/-- The slice of the raw backend report analysis that feeds the fields
modelled here: the combined assessment, the hallucination detail
`risk_level`, and the compliance detail `overall_status`. -/
structure RawReportAnalysis where
  combined_assessment : Option RawCombinedAssessment := none
  hallucination_risk_level : Option String := none
  compliance_overall_status : Option String := none
deriving DecidableEq, Repr

/-- A raw backend report payload (`any`): the `analysis` object may be
absent entirely. -/
structure RawReport where
  analysis : Option RawReportAnalysis := none
deriving DecidableEq, Repr

/-- `mapCombinedAssessment`: each field is the raw value when present,
otherwise the fixed default ("UNKNOWN" for the level/status fields, `""`
or `[]` or `0` for the rest). -/
def mapCombinedAssessment (raw : RawCombinedAssessment) :
    CombinedAssessment :=
  { overallRiskLevel := raw.overall_risk_level.getD "UNKNOWN"
    riskFactors := raw.risk_factors.getD []
    recommendation := raw.recommendation.getD ""
    hallucinationRisk := raw.hallucination_risk.getD "UNKNOWN"
    complianceScore := raw.compliance_score.getD 0
    complianceStatus := raw.compliance_status.getD "UNKNOWN"
    summary := raw.summary.getD "" }

/-- `transformComplianceReport`, restricted to the modelled fields: the
nested raw values default to "UNKNOWN" when absent (mirroring
`detail.risk_level ?? "UNKNOWN"` and `detail?.overall_status ??
"UNKNOWN"`), and the combined assessment is mapped from
`raw?.analysis?.combined_assessment`, defaulted to the empty object. -/
def transformComplianceReport (raw : RawReport) : ComplianceReport :=
  { analysis :=
    { hallucinationAnalysis :=
        ⟨⟨(raw.analysis.bind (·.hallucination_risk_level)).getD "UNKNOWN"⟩⟩
      complianceAnalysis :=
        ⟨⟨(raw.analysis.bind (·.compliance_overall_status)).getD "UNKNOWN"⟩⟩
      combinedAssessment :=
        mapCombinedAssessment
          ((raw.analysis.bind (·.combined_assessment)).getD
            emptyRawCombinedAssessment) } }

end Ai

/-! ## `src/frontend/src/services/ai.ts` (plain version) -/

namespace AiLegacy

/-- `enrichBotOutputs` (plain `ai.ts`): spread the payload and set every
status unconditionally to "pending"; the raw `role` field is kept as
supplied. -/
def enrichBotOutputs (outputs : List BotOutputPayload) : List AIResponse :=
  outputs.map fun output =>
    { id := output.id
      prompt := output.prompt
      content := output.content
      createdAt := output.createdAt
      confidence := output.confidence
      metadata := output.metadata
      role := output.role
      status := AIResponseStatus.pending }

end AiLegacy

/-! ## Role inference shared by both hook files -/

/-- `readMetadataRole` (identical in both hook files): the explicit
`role` field when it is exactly "user" or "assistant", else the metadata
"role" entry under the same check, else `none`. -/
def readMetadataRole (response : AIResponse) : Option String :=
  if response.role = some "user" ∨ response.role = some "assistant" then
    response.role
  else
    match response.metadata with
    | none => none
    | some metadata =>
      match assocGet metadata "role" with
      | some (.str role) =>
        if role = "user" ∨ role = "assistant" then some role else none
      | _ => none

/-- `isAssistantResponse` (identical in both hook files). -/
def isAssistantResponse (response : AIResponse) : Bool :=
  readMetadataRole response = some "assistant"

/-! ## The polling bot-feed hook (merge-based variant) -/

namespace BotFeedPoll

/-- `determineStatusFromReport`: "warning" when any of the uppercased
combined `overallRiskLevel`, hallucination `riskLevel`, or compliance
`overallStatus` is in the list HIGH, CRITICAL; "verified" otherwise. -/
def determineStatusFromReport (report : ComplianceReport) :
    AIResponseStatus :=
  let overallRisk :=
    toUpperCase report.analysis.combinedAssessment.overallRiskLevel
  let hallucinationRisk :=
    toUpperCase report.analysis.hallucinationAnalysis.detail.riskLevel
  let complianceStatus :=
    toUpperCase report.analysis.complianceAnalysis.detail.overallStatus
  if [overallRisk, hallucinationRisk, complianceStatus].any
      (fun risk => risk == "HIGH" || risk == "CRITICAL") then
    .warning
  else
    .verified

/-- `STATUS_PRIORITY`: failed 5, warning 4, verified 3, verifying 2,
pending 1, and 0 for the "unknown" key an absent status is coerced to. -/
def STATUS_PRIORITY : Option AIResponseStatus → Nat
  | some .failed => 5
  | some .warning => 4
  | some .verified => 3
  | some .verifying => 2
  | some .pending => 1
  | none => 0

/-- `preferStatus`: keep the incoming status when its priority is at
least the existing one's, else keep the existing status. -/
def preferStatus (existing incoming : Option AIResponseStatus) :
    Option AIResponseStatus :=
  if STATUS_PRIORITY existing ≤ STATUS_PRIORITY incoming then incoming
  else existing

/-- The `Map` of responses keyed by id that `mergeResponses` builds, in
insertion order. -/
abbrev ResponseMap := List (String × AIResponse)

/-- First phase of `mergeResponses`: `merged.set(response.id, response)`
for each previous response. -/
def insertResponse (m : ResponseMap) (response : AIResponse) : ResponseMap :=
  assocSet m response.id response

/-- The merged record for an id present on both sides: spread the
existing record then the incoming one (incoming fields win), with
`status` replaced by `preferStatus(existing.status, response.status) ??
response.status ?? existing.status`; both statuses are mandatory on
`AIResponse`, so the trailing coalescing collapses to a `getD`. -/
def mergeRecord (existing response : AIResponse) : AIResponse :=
  { response with
    status :=
      (preferStatus (some existing.status) (some response.status)).getD
        response.status }

/-- Second phase of `mergeResponses`: merge one incoming response into
the map, combining with the existing entry when the id is taken. -/
def mergeStep (m : ResponseMap) (response : AIResponse) : ResponseMap :=
  match assocGet m response.id with
  | some existing => assocSet m response.id (mergeRecord existing response)
  | none => assocSet m response.id response

/-- The sort comparator: ascending by the `createdAt` timestamp value. -/
def createdAtLe (a b : AIResponse) : Bool :=
  a.createdAt ≤ b.createdAt

/-- `mergeResponses`: build the id-keyed map from the previous list, fold
the incoming list in with `mergeStep`, then sort the values ascending by
creation time. -/
def mergeResponses (prev incoming : List AIResponse) : List AIResponse :=
  let merged := prev.foldl insertResponse []
  let merged := incoming.foldl mergeStep merged
  (merged.map (·.2)).mergeSort createdAtLe

/-- The hook state this variant owns: the response list, the report
cache keyed by response id, and the polling/error/last-updated cells. -/
structure FeedState where
  responses : List AIResponse
  reports : List (String × ComplianceReport)
  isPolling : Bool
  error : Option String
  lastUpdated : Option String
deriving DecidableEq, Repr

/-- `updateResponse`: map the updater over the one response with the
given id, leaving every other element in place. -/
def updateResponse (responses : List AIResponse) (responseId : String)
    (updater : AIResponse → AIResponse) : List AIResponse :=
  responses.map fun response =>
    if response.id == responseId then updater response else response

/-- `fetchReportIfReady`: skip non-assistant and already-failed
responses without issuing a fetch; otherwise fetch the report
(`reportFor` models the external call, `none` standing for a throw or
not-ready report, which the catch block ignores) and on success store it,
stamp `lastUpdated`, and update the record's status from the report.  The
second component records whether a report fetch was issued. -/
def fetchReportIfReady (reportFor : String → Option ComplianceReport)
    (now : String) (st : FeedState) (response : AIResponse) :
    FeedState × Bool :=
  if !isAssistantResponse response then (st, false)
  else if response.status == .failed then (st, false)
  else
    match reportFor response.id with
    | none => (st, true)
    | some report =>
      ({ st with
          reports := assocSet st.reports response.id report
          lastUpdated := some now
          responses :=
            updateResponse st.responses response.id fun current =>
              { current with status := determineStatusFromReport report } },
        true)

/-- `pullBotOutputs` (polling variant): set the polling flag and clear
the error; if fetching the outputs throws, record the message and stop;
otherwise enrich the outputs, merge them into the stored list, stamp
`lastUpdated`, and for each enriched assistant response promote a
"pending" status to "verifying" and run `fetchReportIfReady` on the
adjusted response; the polling flag is cleared on every path (the
`finally` block). -/
def pullBotOutputs (fetchOutputs : Except String (List BotOutputPayload))
    (reportFor : String → Option ComplianceReport) (now : String)
    (st : FeedState) : FeedState :=
  let st0 := { st with isPolling := true, error := none }
  match fetchOutputs with
  | .error msg => { st0 with error := some msg, isPolling := false }
  | .ok outputs =>
    if outputs.isEmpty then { st0 with isPolling := false }
    else
      let enriched := Ai.enrichBotOutputs outputs
      let st1 :=
        { st0 with
            responses := mergeResponses st0.responses enriched
            lastUpdated := some now }
      let st2 := enriched.foldl (fun acc response =>
        if isAssistantResponse response then
          let adjusted :=
            if response.status == .pending then
              { response with status := AIResponseStatus.verifying }
            else response
          let acc :=
            if response.status == .pending then
              { acc with
                  responses :=
                    updateResponse acc.responses response.id fun current =>
                      { current with status := AIResponseStatus.verifying } }
            else acc
          (fetchReportIfReady reportFor now acc adjusted).1
        else acc) st1
      { st2 with isPolling := false }

end BotFeedPoll

/-! ## `src/frontend/src/hooks/use-bot-feed.ts` (verification-request variant) -/

namespace UseBotFeed

/-- The report shape this hook reads: only its `warnings` list is ever
inspected (`result.report.warnings.length > 0`). -/
structure HookReport where
  warnings : List String
deriving DecidableEq, Repr

/-- `VerificationResult`: the verified response together with its
report. -/
structure VerificationResult where
  response : AIResponse
  report : HookReport
deriving DecidableEq, Repr

/-- The hook state: response list, report cache, error cell, polling
flag, last-updated stamp. -/
structure HookState where
  responses : List AIResponse
  reports : List (String × HookReport)
  isPolling : Bool
  error : Option String
  lastUpdated : Option String
deriving DecidableEq, Repr

/-- The failure update applied by `handleVerification`'s catch block:
mark the record failed and store the thrown error's message on the spread
metadata under "verificationError". -/
def markFailed (msg : String) (current : AIResponse) : AIResponse :=
  { current with
    status := .failed
    metadata :=
      some (assocSet (current.metadata.getD []) "verificationError"
        (.str msg)) }

/-- `handleVerification`: return unchanged for non-assistant responses;
otherwise set the record to "verifying", issue the verification request
(`verify` models the external call on the id/content payload), and on
success store the report, stamp `lastUpdated`, and write the terminal
status ("warning" when the report carries warnings, else "verified"); on
failure apply `markFailed` to the one matching record and stamp
`lastUpdated`.  Nothing is rethrown on either path. -/
def handleVerification
    (verify : String → String → Except String VerificationResult)
    (now : String) (st : HookState) (response : AIResponse) : HookState :=
  if !isAssistantResponse response then st
  else
    let st :=
      { st with
          responses :=
            BotFeedPoll.updateResponse st.responses response.id
              fun current => { current with status := .verifying } }
    match verify response.id response.content with
    | .ok result =>
      { st with
          reports := assocSet st.reports result.response.id result.report
          lastUpdated := some now
          responses :=
            BotFeedPoll.updateResponse st.responses result.response.id
              fun _ =>
                { result.response with
                  status :=
                    if result.report.warnings.length > 0 then .warning
                    else .verified } }
    | .error msg =>
      { st with
          responses :=
            BotFeedPoll.updateResponse st.responses response.id
              (markFailed msg)
          lastUpdated := some now }

/-- An observable action of one `handleVerification` execution. -/
inductive HookEvent where
  | statusWrite (id : String) (status : AIResponseStatus)
  | verifyRequest (id : String)
  | reportWrite (id : String)
deriving DecidableEq, Repr

/-- A terminal status write: a write of "verified", "warning" or
"failed". -/
def isTerminalWrite : HookEvent → Bool
  | .statusWrite _ s => s == .verified || s == .warning || s == .failed
  | _ => false

/-- Number of terminal status writes in a trace. -/
def countTerminalWrites (trace : List HookEvent) : Nat :=
  (trace.filter isTerminalWrite).length

/-- The action trace of one `handleVerification` execution.  The function
consults no in-flight bookkeeping of any kind — its behaviour depends
only on its own arguments — so the trace is fixed by the response and the
outcome of its own verification request. -/
def handleVerificationTrace (response : AIResponse)
    (outcome : Except String VerificationResult) : List HookEvent :=
  if !isAssistantResponse response then []
  else
    .statusWrite response.id .verifying ::
    .verifyRequest response.id ::
    match outcome with
    | .ok result =>
      [.reportWrite result.response.id,
       .statusWrite result.response.id
         (if result.report.warnings.length > 0 then .warning
          else .verified)]
    | .error _ => [.statusWrite response.id .failed]

/-- An interleaving of two concurrent traces: the scheduler picks the
next event from either run, preserving each run's internal order. -/
inductive Interleaving : List HookEvent → List HookEvent → List HookEvent → Prop where
  | nil : Interleaving [] [] []
  | left {x xs ys zs} : Interleaving xs ys zs →
      Interleaving (x :: xs) ys (x :: zs)
  | right {y xs ys zs} : Interleaving xs ys zs →
      Interleaving xs (y :: ys) (y :: zs)

end UseBotFeed

/-! ## Concrete values used by counterexamples and witnesses -/

/-- An assistant-role response with id "r1", as ingested by the feed. -/
def exAssistantRec : AIResponse :=
  { id := "r1", content := "aspirin reply", createdAt := 10,
    role := some "assistant", status := .pending }

/-- A user-role response, never verified. -/
def exUserRec : AIResponse :=
  { id := "u1", content := "question", createdAt := 5,
    role := some "user", status := .pending }

/-- The stored record for id "r1" after its run failed. -/
def exRecFailed : AIResponse :=
  { exAssistantRec with status := .failed }

/-- A stale poll copy of id "r1" still carrying status "pending". -/
def exRecPending : AIResponse :=
  { exAssistantRec with status := .pending }

/-- A verification result for id "r1" whose report carries no warnings. -/
def exResultClean : UseBotFeed.VerificationResult :=
  { response := exAssistantRec, report := { warnings := [] } }

/-- A verification result for id "r1" whose report carries one warning. -/
def exResultFlagged : UseBotFeed.VerificationResult :=
  { response := exAssistantRec, report := { warnings := ["unverified citation"] } }

/-- A hook state holding the one assistant record "r1". -/
def exHookState : UseBotFeed.HookState :=
  { responses := [exUserRec, exAssistantRec], reports := [],
    isPolling := false, error := none, lastUpdated := none }

/-- A feed state holding the one assistant record "r1". -/
def exFeedState : BotFeedPoll.FeedState :=
  { responses := [exAssistantRec], reports := [],
    isPolling := false, error := none, lastUpdated := none }

/-- A report whose combined overall risk is LOW while the hallucination
analysis risk level is HIGH. -/
def exReportHallucinationHigh : ComplianceReport :=
  { analysis :=
    { hallucinationAnalysis := ⟨⟨"HIGH"⟩⟩
      complianceAnalysis := ⟨⟨"COMPLIANT"⟩⟩
      combinedAssessment :=
        { overallRiskLevel := "LOW", riskFactors := [],
          recommendation := "", hallucinationRisk := "HIGH",
          complianceScore := 80, complianceStatus := "COMPLIANT",
          summary := "" } } }

/-- A report whose combined overall risk is HIGH. -/
def exReportOverallHigh : ComplianceReport :=
  { analysis :=
    { hallucinationAnalysis := ⟨⟨"LOW"⟩⟩
      complianceAnalysis := ⟨⟨"COMPLIANT"⟩⟩
      combinedAssessment :=
        { overallRiskLevel := "HIGH", riskFactors := [],
          recommendation := "", hallucinationRisk := "LOW",
          complianceScore := 80, complianceStatus := "COMPLIANT",
          summary := "" } } }

/-- A payload that already carries a terminal status "verified". -/
def exPayloadStatusKept : BotOutputPayload :=
  { id := "p1", content := "x", createdAt := 0,
    role := some "assistant", status := some .verified }

/-- A status-free assistant payload. -/
def exPayloadPlain : BotOutputPayload :=
  { id := "p2", content := "y", createdAt := 1,
    role := some "assistant", status := none }

/-- The combined-assessment object of `exRawFull`, with every field drawn
from the contract vocabularies. -/
def exRawCombined : Ai.RawCombinedAssessment :=
  { overall_risk_level := some "HIGH"
    risk_factors := some ["f"]
    recommendation := some "revise"
    hallucination_risk := some "MEDIUM"
    compliance_score := some 70
    compliance_status := some "NEEDS_REVIEW"
    summary := some "s" }

/-- A raw backend report supplying every combined-assessment field from
the contract vocabularies. -/
def exRawFull : Ai.RawReport :=
  { analysis := some
      { combined_assessment := some exRawCombined
        hallucination_risk_level := some "MEDIUM"
        compliance_overall_status := some "NEEDS_REVIEW" } }

/-! ## Theorems -/

/-- Helper: defaulting to "UNKNOWN" keeps a vocabulary membership exactly
when the raw value is supplied and in the vocabulary. -/
theorem getD_unknown_mem_vocab (o : Option String) (vocab : List String)
    (h : "UNKNOWN" ∉ vocab) :
    (o.getD "UNKNOWN" ∈ vocab ↔ ∃ s, o = some s ∧ s ∈ vocab) := by
  cases o with
  | none => simp [h]
  | some s => simp

/-- C8: `preferStatus` is the join of the status priority order: it
returns an argument of maximal priority, is idempotent and commutative,
and the priorities are failed 5, warning 4, verified 3, verifying 2,
pending 1, absent 0. -/
theorem c8_prefer_status_join :
    (∀ a b, BotFeedPoll.STATUS_PRIORITY (BotFeedPoll.preferStatus a b) =
      max (BotFeedPoll.STATUS_PRIORITY a) (BotFeedPoll.STATUS_PRIORITY b)) ∧
    (∀ a b, BotFeedPoll.preferStatus a b = a ∨
      BotFeedPoll.preferStatus a b = b) ∧
    (∀ a b, BotFeedPoll.STATUS_PRIORITY a < BotFeedPoll.STATUS_PRIORITY b →
      BotFeedPoll.preferStatus a b = b) ∧
    (∀ a b, BotFeedPoll.STATUS_PRIORITY b < BotFeedPoll.STATUS_PRIORITY a →
      BotFeedPoll.preferStatus a b = a) ∧
    (∀ a, BotFeedPoll.preferStatus a a = a) ∧
    (∀ a b, BotFeedPoll.preferStatus a b = BotFeedPoll.preferStatus b a) ∧
    BotFeedPoll.STATUS_PRIORITY (some .failed) = 5 ∧
    BotFeedPoll.STATUS_PRIORITY (some .warning) = 4 ∧
    BotFeedPoll.STATUS_PRIORITY (some .verified) = 3 ∧
    BotFeedPoll.STATUS_PRIORITY (some .verifying) = 2 ∧
    BotFeedPoll.STATUS_PRIORITY (some .pending) = 1 ∧
    BotFeedPoll.STATUS_PRIORITY none = 0 := by
  decide

/-- C8 witness: the join instantiated on a concrete pair. -/
theorem c8_prefer_status_join_witness :
    BotFeedPoll.preferStatus (some .pending) (some .failed) = some .failed ∧
    BotFeedPoll.preferStatus (some .failed) (some .pending) = some .failed :=
  ⟨c8_prefer_status_join.2.2.1 _ _ (by decide),
   c8_prefer_status_join.2.2.2.1 _ _ (by decide)⟩

/-- C2 counterexample: a report whose combined overall risk level is
"LOW" is still mapped to "warning", because the hallucination analysis
risk level alone is "HIGH"; the claimed equivalence with the combined
overall risk level is false. -/
theorem c2_counterexample_low_overall_warning :
    BotFeedPoll.determineStatusFromReport exReportHallucinationHigh =
      .warning ∧
    exReportHallucinationHigh.analysis.combinedAssessment.overallRiskLevel =
      "LOW" := by
  decide

/-- C2 amended: the report-derived status is "warning" exactly when ANY
of the three uppercased fields — combined overall risk level,
hallucination risk level, compliance overall status — is "HIGH" or
"CRITICAL"; a combined overall risk of "HIGH"/"CRITICAL" still implies
"warning", and the report-derived status is never "failed". -/
theorem c2_warning_from_any_risk_field (report : ComplianceReport) :
    (BotFeedPoll.determineStatusFromReport report = .warning ↔
      ((toUpperCase report.analysis.combinedAssessment.overallRiskLevel =
          "HIGH" ∨
        toUpperCase report.analysis.combinedAssessment.overallRiskLevel =
          "CRITICAL") ∨
       (toUpperCase report.analysis.hallucinationAnalysis.detail.riskLevel =
          "HIGH" ∨
        toUpperCase report.analysis.hallucinationAnalysis.detail.riskLevel =
          "CRITICAL") ∨
       (toUpperCase report.analysis.complianceAnalysis.detail.overallStatus =
          "HIGH" ∨
        toUpperCase report.analysis.complianceAnalysis.detail.overallStatus =
          "CRITICAL"))) ∧
    ((toUpperCase report.analysis.combinedAssessment.overallRiskLevel =
        "HIGH" ∨
      toUpperCase report.analysis.combinedAssessment.overallRiskLevel =
        "CRITICAL") →
      BotFeedPoll.determineStatusFromReport report = .warning) ∧
    BotFeedPoll.determineStatusFromReport report ≠ .failed := by
  unfold BotFeedPoll.determineStatusFromReport
  simp only [List.any_cons, List.any_nil, Bool.or_false, Bool.or_eq_true,
    beq_iff_eq]
  refine ⟨?_, ?_, ?_⟩
  · split
    case isTrue h => simpa using h
    case isFalse h => simpa using h
  · intro h
    split
    case isTrue _ => rfl
    case isFalse hneg => exact absurd (by tauto) hneg
  · split
    case isTrue _ => simp
    case isFalse _ => simp

/-- C2 witness: the amended theorem instantiated on a report whose
combined overall risk level is "HIGH". -/
theorem c2_warning_from_any_risk_field_witness :
    BotFeedPoll.determineStatusFromReport exReportOverallHigh = .warning :=
  (c2_warning_from_any_risk_field exReportOverallHigh).2.1 (by decide)

/-- C5 counterexample: on a raw payload with no analysis object, every
transformed vocabulary field is "UNKNOWN", which lies outside both
contract vocabularies. -/
theorem c5_counterexample_unknown_defaults :
    (Ai.transformComplianceReport { analysis := none
      }).analysis.combinedAssessment.overallRiskLevel ∉
        riskLevelVocabulary ∧
    (Ai.transformComplianceReport { analysis := none
      }).analysis.combinedAssessment.hallucinationRisk ∉
        riskLevelVocabulary ∧
    (Ai.transformComplianceReport { analysis := none
      }).analysis.combinedAssessment.complianceStatus ∉
        complianceStatusVocabulary := by
  decide

/-- C5 amended: the transform passes supplied combined-assessment values
through bit-exactly and fills absent ones with "UNKNOWN"; hence each
transformed field lies in its contract vocabulary exactly when the raw
payload supplies that field with a value from the vocabulary. -/
theorem c5_vocabulary_preserved_iff_supplied (raw : Ai.RawReport) :
    ((Ai.transformComplianceReport
        raw).analysis.combinedAssessment.overallRiskLevel ∈
          riskLevelVocabulary ↔
      ∃ s, ((raw.analysis.bind (·.combined_assessment)).getD
          Ai.emptyRawCombinedAssessment).overall_risk_level = some s ∧
        s ∈ riskLevelVocabulary) ∧
    ((Ai.transformComplianceReport
        raw).analysis.combinedAssessment.hallucinationRisk ∈
          riskLevelVocabulary ↔
      ∃ s, ((raw.analysis.bind (·.combined_assessment)).getD
          Ai.emptyRawCombinedAssessment).hallucination_risk = some s ∧
        s ∈ riskLevelVocabulary) ∧
    ((Ai.transformComplianceReport
        raw).analysis.combinedAssessment.complianceStatus ∈
          complianceStatusVocabulary ↔
      ∃ s, ((raw.analysis.bind (·.combined_assessment)).getD
          Ai.emptyRawCombinedAssessment).compliance_status = some s ∧
        s ∈ complianceStatusVocabulary) ∧
    (∀ s, ((raw.analysis.bind (·.combined_assessment)).getD
        Ai.emptyRawCombinedAssessment).overall_risk_level = some s →
      (Ai.transformComplianceReport
        raw).analysis.combinedAssessment.overallRiskLevel = s) ∧
    (∀ s, ((raw.analysis.bind (·.combined_assessment)).getD
        Ai.emptyRawCombinedAssessment).hallucination_risk = some s →
      (Ai.transformComplianceReport
        raw).analysis.combinedAssessment.hallucinationRisk = s) ∧
    (∀ s, ((raw.analysis.bind (·.combined_assessment)).getD
        Ai.emptyRawCombinedAssessment).compliance_status = some s →
      (Ai.transformComplianceReport
        raw).analysis.combinedAssessment.complianceStatus = s) := by
  refine ⟨?_, ?_, ?_, ?_, ?_, ?_⟩
  · exact getD_unknown_mem_vocab _ _ (by decide)
  · exact getD_unknown_mem_vocab _ _ (by decide)
  · exact getD_unknown_mem_vocab _ _ (by decide)
  · intro s h
    simp [Ai.transformComplianceReport, Ai.mapCombinedAssessment, h]
  · intro s h
    simp [Ai.transformComplianceReport, Ai.mapCombinedAssessment, h]
  · intro s h
    simp [Ai.transformComplianceReport, Ai.mapCombinedAssessment, h]

/-- C5 witness: the amended theorem instantiated on a raw payload that
supplies every field from the vocabularies. -/
theorem c5_vocabulary_preserved_witness :
    (Ai.transformComplianceReport
      exRawFull).analysis.combinedAssessment.overallRiskLevel ∈
        riskLevelVocabulary ∧
    (Ai.transformComplianceReport
      exRawFull).analysis.combinedAssessment.complianceStatus = 
        "NEEDS_REVIEW" :=
  ⟨(c5_vocabulary_preserved_iff_supplied exRawFull).1.mpr
      ⟨"HIGH", by decide, by decide⟩,
   (c5_vocabulary_preserved_iff_supplied
      exRawFull).2.2.2.2.2 "NEEDS_REVIEW" (by decide)⟩

/-- C10 counterexample: on a payload that already carries status
"verified", the transforming `enrichBotOutputs` keeps that status while
the plain version forces "pending", so the two versions are not
extensionally equal. -/
theorem c10_counterexample_status_kept :
    Ai.enrichBotOutputs [exPayloadStatusKept] ≠
      AiLegacy.enrichBotOutputs [exPayloadStatusKept] := by
  decide

/-- C10 amended: the two `enrichBotOutputs` versions agree exactly on
payload lists in which every payload's status is absent or already
"pending" and the derived role coincides with the raw role field;
outside that set they differ (the transforming version keeps a supplied
non-pending status and overwrites the role with the derived role, the
plain version forces "pending" and keeps the raw role). -/
theorem c10_enrich_agreement (outputs : List BotOutputPayload)
    (h : ∀ o ∈ outputs, (o.status = none ∨ o.status = some .pending) ∧
      Ai.deriveRole o = o.role) :
    Ai.enrichBotOutputs outputs = AiLegacy.enrichBotOutputs outputs := by
  unfold Ai.enrichBotOutputs AiLegacy.enrichBotOutputs
  refine List.map_congr_left ?_
  intro o ho
  obtain ⟨hs, hr⟩ := h o ho
  rcases hs with hs | hs <;> simp [hs, hr]

/-- C10 witness: the amended agreement instantiated on a status-free
assistant payload. -/
theorem c10_enrich_agreement_witness :
    Ai.enrichBotOutputs [exPayloadPlain] =
      AiLegacy.enrichBotOutputs [exPayloadPlain] :=
  c10_enrich_agreement [exPayloadPlain] (by decide)

/-- C6: a derived role is only ever "user" or "assistant" and only when
the explicit role field or the metadata role entry holds exactly that
string; and a response whose derived role is not "assistant" triggers no
report fetch (`fetchReportIfReady` returns unchanged without fetching),
produces no verification actions, and leaves `handleVerification` a
no-op. -/
theorem c6_assistant_only_verification :
    (∀ (payload : BotOutputPayload) (r : String),
      Ai.deriveRole payload = some r →
      (r = "user" ∨ r = "assistant") ∧
      (payload.role = some r ∨
        Ai.readMetadataString payload "role" = some r)) ∧
    (∀ (reportFor : String → Option ComplianceReport) (now : String)
      (st : BotFeedPoll.FeedState) (response : AIResponse),
      isAssistantResponse response = false →
      BotFeedPoll.fetchReportIfReady reportFor now st response =
        (st, false)) ∧
    (∀ (response : AIResponse)
      (outcome : Except String UseBotFeed.VerificationResult),
      isAssistantResponse response = false →
      UseBotFeed.handleVerificationTrace response outcome = []) ∧
    (∀ (verify : String → String → Except String UseBotFeed.VerificationResult)
      (now : String) (st : UseBotFeed.HookState) (response : AIResponse),
      isAssistantResponse response = false →
      UseBotFeed.handleVerification verify now st response = st) := by
  refine ⟨?_, ?_, ?_, ?_⟩
  · intro payload r h
    unfold Ai.deriveRole at h
    split at h
    case isTrue hrole =>
      rcases hrole with h1 | h1 <;> rw [h1] at h <;>
        cases h <;> exact ⟨by simp, Or.inl h1⟩
    case isFalse hrole =>
      rcases hm : Ai.readMetadataString payload "role" with _ | mr <;>
        rw [hm] at h
      · exact absurd h (by simp)
      · change (if mr = "user" ∨ mr = "assistant" then some mr else none) =
          some r at h
        by_cases hv : mr = "user" ∨ mr = "assistant"
        · rw [if_pos hv] at h
          have hmr : mr = r := by injection h
          subst hmr
          exact ⟨hv, Or.inr rfl⟩
        · rw [if_neg hv] at h
          exact absurd h (by simp)
  · intro reportFor now st response h
    simp [BotFeedPoll.fetchReportIfReady, h]
  · intro response outcome h
    simp [UseBotFeed.handleVerificationTrace, h]
  · intro verify now st response h
    simp [UseBotFeed.handleVerification, h]

/-- C6 witness: the guards instantiated on a user-role response and the
role derivation on a payload with an explicit "user" role. -/
theorem c6_assistant_only_verification_witness :
    ("user" = "user" ∨ "user" = "assistant") ∧
    UseBotFeed.handleVerificationTrace exUserRec
      (.error "boom") = [] := by
  refine ⟨(c6_assistant_only_verification.1
    { id := "u2", role := some "user" } "user" (by decide)).1, ?_⟩
  exact c6_assistant_only_verification.2.2.1 exUserRec _ (by decide)

/-- Helper: replacing the entries at key `k` rewrites what a lookup of
`k` finds. -/
theorem find?_map_replace_eq {α : Type} (m : List (String × α))
    (k : String) (v : α) :
    List.find? (fun e => e.1 == k)
        (m.map (fun e => if e.1 == k then (k, v) else e)) =
      (List.find? (fun e => e.1 == k) m).map (fun _ => (k, v)) := by
  induction m with
  | nil => rfl
  | cons e es ih =>
    by_cases he : e.1 = k
    · simp [List.find?_cons, he]
    · simp at ih
      simp [List.find?_cons, he]
      exact ih

/-- Helper: replacing the entries at key `k2` leaves a lookup of a
different key `k` unchanged. -/
theorem find?_map_replace_ne {α : Type} (m : List (String × α))
    {k k2 : String} (v : α) (h : k ≠ k2) :
    List.find? (fun e => e.1 == k)
        (m.map (fun e => if e.1 == k2 then (k2, v) else e)) =
      List.find? (fun e => e.1 == k) m := by
  induction m with
  | nil => rfl
  | cons e es ih =>
    by_cases he : e.1 = k2
    · have h1 : (e.1 == k) = false := by simp [he, Ne.symm h]
      have h2 : (k2 == k) = false := by simp [Ne.symm h]
      simp at ih
      simp [List.find?_cons, he, h1, h2]
      exact ih
    · by_cases hk : e.1 = k
      · simp [List.find?_cons, he, hk, h]
      · simp at ih
        simp [List.find?_cons, he, hk]
        exact ih

/-- Helper: setting a key stores its value. -/
theorem assocGet_assocSet_self {α : Type} (m : List (String × α))
    (k : String) (v : α) : assocGet (assocSet m k v) k = some v := by
  unfold assocSet
  split
  case isTrue hany =>
    rw [List.any_eq_true] at hany
    obtain ⟨x, hx, hpx⟩ := hany
    cases hfind : List.find? (fun e => e.1 == k) m with
    | none =>
      rw [List.find?_eq_none] at hfind
      exact absurd hpx (hfind x hx)
    | some e =>
      rw [assocGet, find?_map_replace_eq, hfind]
      rfl
  case isFalse hany =>
    rw [Bool.not_eq_true, List.any_eq_false] at hany
    have hnone : List.find? (fun e => e.1 == k) m = none := by
      rw [List.find?_eq_none]
      exact hany
    simp [assocGet, List.find?_append, hnone]

/-- Helper: setting one key leaves lookups of other keys unchanged. -/
theorem assocGet_assocSet_ne {α : Type} (m : List (String × α))
    {k k2 : String} (v : α) (h : k ≠ k2) :
    assocGet (assocSet m k2 v) k = assocGet m k := by
  unfold assocSet
  split
  case isTrue hany =>
    rw [assocGet, find?_map_replace_ne m v h]
    rfl
  case isFalse hany =>
    have h2 : (k2 == k) = false := by simp [Ne.symm h]
    simp only [assocGet, List.find?_append, List.find?_cons, h2,
      List.find?_nil]
    cases List.find? (fun e => e.1 == k) m <;> rfl

/-- Helper: the failure path of `handleVerification` maps the failure
update over exactly the records carrying the requested id (after the
initial "verifying" write) and leaves the report cache untouched. -/
theorem handleVerification_error_responses (st : UseBotFeed.HookState)
    (response : AIResponse) (msg now : String)
    (hassist : isAssistantResponse response = true) :
    (UseBotFeed.handleVerification (fun _ _ => .error msg) now st
        response).responses =
      st.responses.map (fun c =>
        if c.id == response.id then
          UseBotFeed.markFailed msg { c with status := .verifying }
        else c) ∧
    (UseBotFeed.handleVerification (fun _ _ => .error msg) now st
        response).reports = st.reports := by
  constructor
  · simp only [UseBotFeed.handleVerification, hassist, Bool.not_true,
      Bool.false_eq_true, if_false, BotFeedPoll.updateResponse,
      List.map_map]
    refine List.map_congr_left ?_
    intro c _
    by_cases hcid : c.id = response.id
    · have h1 : (c.id == response.id) = true := by simp [hcid]
      simp [Function.comp, h1]
    · have h1 : (c.id == response.id) = false := by simp [hcid]
      simp [Function.comp, h1]
  · simp only [UseBotFeed.handleVerification, hassist, Bool.not_true,
      Bool.false_eq_true, if_false]

/-- Helper: a set object is never empty. -/
theorem assocSet_ne_nil {α : Type} (m : List (String × α)) (k : String)
    (v : α) : assocSet m k v ≠ [] := by
  unfold assocSet
  split
  case isTrue hany =>
    cases m with
    | nil => simp at hany
    | cons e es => simp
  case isFalse hany => simp

/-- C4: when a verification request fails, every record carrying the
requested id is marked "failed" with the thrown error's message stored on
its metadata under "verificationError"; and the error thrown for an HTTP
failure always carries a non-empty message (the response body text, or
the generated fallback). -/
theorem c4_failed_records_carry_error :
    (∀ (st : UseBotFeed.HookState) (response : AIResponse) (msg now : String),
      isAssistantResponse response = true →
      ∀ c ∈ (UseBotFeed.handleVerification (fun _ _ => .error msg) now st
          response).responses,
        c.id = response.id →
        c.status = .failed ∧
        assocGet (c.metadata.getD []) "verificationError" =
          some (MetaValue.str msg)) ∧
    (∀ (status : Nat) (bodyText : String),
      Ai.httpErrorMessage status bodyText ≠ "") := by
  constructor
  · intro st response msg now hassist c hc hid
    rw [(handleVerification_error_responses st response msg now hassist).1]
      at hc
    obtain ⟨a, ha, hac⟩ := List.mem_map.1 hc
    by_cases haid : a.id = response.id
    · have h1 : (a.id == response.id) = true := by simp [haid]
      rw [if_pos h1] at hac
      subst hac
      refine ⟨rfl, ?_⟩
      simp only [UseBotFeed.markFailed, Option.getD_some]
      exact assocGet_assocSet_self _ _ _
    · have h1 : (a.id == response.id) = false := by simp [haid]
      rw [h1] at hac
      simp only [Bool.false_eq_true, if_false] at hac
      subst hac
      exact absurd hid haid
  · intro status bodyText
    unfold Ai.httpErrorMessage
    split
    case isTrue h =>
      intro hcontra
      have hl := congrArg String.length hcontra
      rw [String.length_append] at hl
      have h1 : ("Request failed with status ").length = 27 := rfl
      have h2 : ("" : String).length = 0 := rfl
      rw [h1, h2] at hl
      omega
    case isFalse h =>
      simpa using h

/-- C4 witness: the failure path instantiated on the concrete store and
record "r1", and the fallback message for an empty body at HTTP 503. -/
theorem c4_failed_records_carry_error_witness :
    ((UseBotFeed.markFailed "boom"
        { exAssistantRec with status := .verifying }).status = .failed ∧
      assocGet ((UseBotFeed.markFailed "boom"
          { exAssistantRec with status := .verifying }).metadata.getD [])
        "verificationError" = some (MetaValue.str "boom")) ∧
    Ai.httpErrorMessage 503 "" ≠ "" := by
  refine ⟨?_, c4_failed_records_carry_error.2 503 ""⟩
  have h := c4_failed_records_carry_error.1 exHookState exAssistantRec
    "boom" "2025-01-01" (by decide)
  exact h (UseBotFeed.markFailed "boom"
      { exAssistantRec with status := .verifying }) (by decide) (by decide)

/-- C9: errors stay inside the state machine and failed steps are
atomic.  A failed outputs fetch only records the message and clears the
polling flag, leaving responses, reports and the last-updated stamp
untouched (and is not rethrown — the step is a total function); a failed
verification request rewrites exactly the records carrying the requested
id with the failure update, leaves the report cache untouched, and every
other record survives unchanged. -/
theorem c9_errors_never_escape :
    (∀ (msg : String) (reportFor : String → Option ComplianceReport)
      (now : String) (st : BotFeedPoll.FeedState),
      BotFeedPoll.pullBotOutputs (.error msg) reportFor now st =
        { st with error := some msg, isPolling := false }) ∧
    (∀ (st : UseBotFeed.HookState) (response : AIResponse) (msg now : String),
      isAssistantResponse response = true →
      (UseBotFeed.handleVerification (fun _ _ => .error msg) now st
          response).responses =
        st.responses.map (fun c =>
          if c.id == response.id then
            UseBotFeed.markFailed msg { c with status := .verifying }
          else c) ∧
      (UseBotFeed.handleVerification (fun _ _ => .error msg) now st
          response).reports = st.reports ∧
      (∀ c ∈ st.responses, c.id ≠ response.id →
        c ∈ (UseBotFeed.handleVerification (fun _ _ => .error msg) now st
          response).responses)) := by
  constructor
  · intro msg reportFor now st
    rfl
  · intro st response msg now hassist
    obtain ⟨h1, h2⟩ :=
      handleVerification_error_responses st response msg now hassist
    refine ⟨h1, h2, ?_⟩
    intro c hc hne
    rw [h1]
    have hfix : (if c.id == response.id then
        UseBotFeed.markFailed msg { c with status := .verifying }
      else c) = c := by
      have hb : (c.id == response.id) = false := by simp [hne]
      rw [hb]
      simp
    exact hfix ▸ List.mem_map_of_mem _ hc

/-- C9 witness: the two error paths instantiated on concrete states. -/
theorem c9_errors_never_escape_witness :
    BotFeedPoll.pullBotOutputs (.error "network down") (fun _ => none)
        "2025-01-01" exFeedState =
      { exFeedState with
          error := some "network down"
          isPolling := false } ∧
    (UseBotFeed.handleVerification (fun _ _ => .error "boom") "2025-01-01"
        exHookState exAssistantRec).reports = exHookState.reports :=
  ⟨c9_errors_never_escape.1 "network down" (fun _ => none) "2025-01-01"
      exFeedState,
   (c9_errors_never_escape.2 exHookState exAssistantRec "boom" "2025-01-01"
      (by decide)).2.1⟩

/-- Helper: terminal-write count of a cons. -/
theorem countTerminalWrites_cons (e : UseBotFeed.HookEvent)
    (t : List UseBotFeed.HookEvent) :
    UseBotFeed.countTerminalWrites (e :: t) =
      (if UseBotFeed.isTerminalWrite e then 1 else 0) +
        UseBotFeed.countTerminalWrites t := by
  simp only [UseBotFeed.countTerminalWrites, List.filter_cons]
  split <;> simp [Nat.add_comm]

/-- Helper: an interleaving carries the terminal writes of both runs. -/
theorem countTerminalWrites_interleaving
    {xs ys zs : List UseBotFeed.HookEvent}
    (h : UseBotFeed.Interleaving xs ys zs) :
    UseBotFeed.countTerminalWrites zs =
      UseBotFeed.countTerminalWrites xs +
        UseBotFeed.countTerminalWrites ys := by
  induction h with
  | nil => rfl
  | left h ih =>
    rw [countTerminalWrites_cons, countTerminalWrites_cons, ih]
    omega
  | right h ih =>
    rw [countTerminalWrites_cons, countTerminalWrites_cons, ih]
    omega

/-- Helper: running one trace to completion before the other is one of
the possible interleavings. -/
theorem interleaving_append (xs ys : List UseBotFeed.HookEvent) :
    UseBotFeed.Interleaving xs ys (xs ++ ys) := by
  induction xs with
  | nil =>
    induction ys with
    | nil => exact .nil
    | cons y ys ih => exact .right ih
  | cons x xs ih => exact .left ih

/-- C3: `handleVerification` keeps no in-flight bookkeeping, so two
concurrent re-check runs for the same exchange id "r1" both proceed to
completion: every interleaving of their traces contains exactly two
independent terminal status writes — the single-flight contract (join or
reject the second run) is not implemented. -/
theorem c3_concurrent_rechecks_two_terminal_writes :
    ∀ zs, UseBotFeed.Interleaving
        (UseBotFeed.handleVerificationTrace exAssistantRec
          (.ok exResultClean))
        (UseBotFeed.handleVerificationTrace exAssistantRec
          (.ok exResultFlagged)) zs →
      UseBotFeed.countTerminalWrites zs = 2 := by
  intro zs h
  rw [countTerminalWrites_interleaving h]
  decide

/-- C3 witness: the sequentialised interleaving of the two runs for id
"r1" indeed shows two terminal writes. -/
theorem c3_concurrent_rechecks_witness :
    UseBotFeed.countTerminalWrites
      (UseBotFeed.handleVerificationTrace exAssistantRec
          (.ok exResultClean) ++
        UseBotFeed.handleVerificationTrace exAssistantRec
          (.ok exResultFlagged)) = 2 :=
  c3_concurrent_rechecks_two_terminal_writes _ (interleaving_append _ _)

/-- Helper: the keys of a set object — unchanged when the key was
present, extended by the key otherwise. -/
theorem keys_assocSet {α : Type} (m : List (String × α)) (k : String)
    (v : α) :
    (assocSet m k v).map (·.1) =
      if m.any (fun e => e.1 == k) then m.map (·.1)
      else m.map (·.1) ++ [k] := by
  unfold assocSet
  split
  · rw [List.map_map]
    refine List.map_congr_left ?_
    intro e _
    by_cases he : e.1 = k
    · simp [he]
    · simp [he]
  · simp

/-- Helper: setting a key preserves key uniqueness. -/
theorem nodup_keys_assocSet {α : Type} (m : List (String × α))
    (k : String) (v : α) (h : (m.map (·.1)).Nodup) :
    ((assocSet m k v).map (·.1)).Nodup := by
  rw [keys_assocSet]
  split
  case isTrue hany => exact h
  case isFalse hany =>
    rw [Bool.not_eq_true, List.any_eq_false] at hany
    rw [List.nodup_append]
    refine ⟨h, List.nodup_singleton k, ?_⟩
    intro x hx hxk
    rw [List.mem_singleton] at hxk
    subst hxk
    obtain ⟨e, he, hek⟩ := List.mem_map.1 hx
    exact hany e he (by simp [hek])

/-- Helper: setting a key whose value carries that key as its id
preserves the id-equals-key invariant of a response map. -/
theorem entry_id_assocSet (m : BotFeedPoll.ResponseMap) (k : String)
    (v : AIResponse) (hm : ∀ e ∈ m, e.2.id = e.1) (hv : v.id = k) :
    ∀ e ∈ assocSet m k v, e.2.id = e.1 := by
  intro e he
  unfold assocSet at he
  split at he
  · obtain ⟨a, ha, hae⟩ := List.mem_map.1 he
    by_cases hak : a.1 = k
    · rw [if_pos (by simp [hak])] at hae
      subst hae
      exact hv
    · rw [if_neg (by simp [hak])] at hae
      subst hae
      exact hm a ha
  · rw [List.mem_append] at he
    rcases he with he | he
    · exact hm e he
    · rw [List.mem_singleton] at he
      subst he
      exact hv

/-- Helper: a lookup hits iff the key occurs among the keys. -/
theorem mem_keys_iff_isSome {α : Type} (m : List (String × α))
    (k : String) :
    k ∈ m.map (·.1) ↔ (assocGet m k).isSome = true := by
  unfold assocGet
  rw [show (List.find? (fun e => e.1 == k) m).map (·.2) =
      (·.2) <$> List.find? (fun e => e.1 == k) m from rfl]
  rw [Option.isSome_map, List.find?_isSome]
  constructor
  · intro hk
    obtain ⟨e, he, hek⟩ := List.mem_map.1 hk
    exact ⟨e, he, by simp [hek]⟩
  · intro ⟨e, he, hek⟩
    exact List.mem_map.2 ⟨e, he, by simpa using hek⟩

/-- Helper: with unique keys, a lookup of a member entry's key returns
exactly that entry. -/
theorem find?_eq_of_mem_nodup {α : Type} (m : List (String × α))
    (e : String × α) (hnd : (m.map (·.1)).Nodup) (he : e ∈ m) :
    List.find? (fun x => x.1 == e.1) m = some e := by
  induction m with
  | nil => cases he
  | cons a as ih =>
    rw [List.map_cons, List.nodup_cons] at hnd
    rcases List.mem_cons.1 he with he1 | he1
    · subst he1
      simp [List.find?_cons]
    · have hne : (a.1 == e.1) = false := by
        by_contra hcon
        rw [Bool.not_eq_false, beq_iff_eq] at hcon
        exact hnd.1 (hcon ▸ List.mem_map_of_mem (·.1) he1)
      rw [List.find?_cons, hne]
      exact ih hnd.2 he1

/-- Helper: with unique keys and the id-equals-key invariant, every
stored value is found under its own id. -/
theorem get_of_mem_values (m : BotFeedPoll.ResponseMap)
    (hnd : (m.map (·.1)).Nodup) (hid : ∀ e ∈ m, e.2.id = e.1)
    (r : AIResponse) (hr : r ∈ m.map (·.2)) :
    assocGet m r.id = some r := by
  obtain ⟨e, he, her⟩ := List.mem_map.1 hr
  have hkey : r.id = e.1 := her ▸ hid e he
  rw [assocGet, hkey, find?_eq_of_mem_nodup m e hnd he]
  simp [her]

/-- Helper: the first merge phase keeps the map invariants — unique
keys and each value stored under its own id. -/
theorem insertResponse_foldl_invariants (prev : List AIResponse) :
    ∀ (m : BotFeedPoll.ResponseMap), (m.map (·.1)).Nodup →
      (∀ e ∈ m, e.2.id = e.1) →
      (((prev.foldl BotFeedPoll.insertResponse m).map (·.1)).Nodup ∧
        ∀ e ∈ prev.foldl BotFeedPoll.insertResponse m, e.2.id = e.1) := by
  induction prev with
  | nil => exact fun m h1 h2 => ⟨h1, h2⟩
  | cons p rest ih =>
    intro m h1 h2
    exact ih (BotFeedPoll.insertResponse m p)
      (nodup_keys_assocSet m p.id p h1)
      (entry_id_assocSet m p.id p h2 rfl)

/-- Helper: the second merge phase keeps the same map invariants. -/
theorem mergeStep_foldl_invariants (incoming : List AIResponse) :
    ∀ (m : BotFeedPoll.ResponseMap), (m.map (·.1)).Nodup →
      (∀ e ∈ m, e.2.id = e.1) →
      (((incoming.foldl BotFeedPoll.mergeStep m).map (·.1)).Nodup ∧
        ∀ e ∈ incoming.foldl BotFeedPoll.mergeStep m, e.2.id = e.1) := by
  induction incoming with
  | nil => exact fun m h1 h2 => ⟨h1, h2⟩
  | cons r rest ih =>
    intro m h1 h2
    have hstep : ((BotFeedPoll.mergeStep m r).map (·.1)).Nodup ∧
        ∀ e ∈ BotFeedPoll.mergeStep m r, e.2.id = e.1 := by
      unfold BotFeedPoll.mergeStep
      cases hget : assocGet m r.id with
      | some existing =>
        exact ⟨nodup_keys_assocSet m r.id _ h1,
          entry_id_assocSet m r.id _ h2 rfl⟩
      | none =>
        exact ⟨nodup_keys_assocSet m r.id r h1,
          entry_id_assocSet m r.id r h2 rfl⟩
    exact ih (BotFeedPoll.mergeStep m r) hstep.1 hstep.2

/-- Helper: inserting responses whose ids avoid `k` leaves lookups of
`k` unchanged. -/
theorem get_foldl_insertResponse_untouched (ps : List AIResponse) :
    ∀ (m : BotFeedPoll.ResponseMap) (k : String), k ∉ ps.map (·.id) →
      assocGet (ps.foldl BotFeedPoll.insertResponse m) k = assocGet m k := by
  induction ps with
  | nil => exact fun m k _ => rfl
  | cons p rest ih =>
    intro m k hk
    rw [List.map_cons, List.mem_cons] at hk
    push_neg at hk
    rw [List.foldl_cons, ih (BotFeedPoll.insertResponse m p) k hk.2]
    exact assocGet_assocSet_ne m p hk.1

/-- Helper: after the first merge phase over a duplicate-free previous
list, every previous record is found under its id. -/
theorem get_foldl_insertResponse (prev : List AIResponse) :
    ∀ (m : BotFeedPoll.ResponseMap), (prev.map (·.id)).Nodup →
      ∀ p ∈ prev,
        assocGet (prev.foldl BotFeedPoll.insertResponse m) p.id = some p := by
  induction prev with
  | nil => intro m _ p hp; cases hp
  | cons q rest ih =>
    intro m hnd p hp
    rw [List.map_cons, List.nodup_cons] at hnd
    rcases List.mem_cons.1 hp with hp1 | hp1
    · subst hp1
      rw [List.foldl_cons,
        get_foldl_insertResponse_untouched rest _ p.id hnd.1]
      exact assocGet_assocSet_self m p.id p
    · exact ih (BotFeedPoll.insertResponse m q) hnd.2 p hp1

/-- Helper: a status never loses priority under `mergeRecord`. -/
theorem prio_le_mergeRecord (a b : AIResponse) :
    BotFeedPoll.STATUS_PRIORITY (some a.status) ≤
      BotFeedPoll.STATUS_PRIORITY (some (BotFeedPoll.mergeRecord a b).status) := by
  have key : ∀ s t : AIResponseStatus,
      BotFeedPoll.STATUS_PRIORITY (some s) ≤
        BotFeedPoll.STATUS_PRIORITY
          (some ((BotFeedPoll.preferStatus (some s) (some t)).getD t)) := by
    decide
  have hst : (BotFeedPoll.mergeRecord a b).status =
      (BotFeedPoll.preferStatus (some a.status) (some b.status)).getD
        b.status := rfl
  rw [hst]
  exact key a.status b.status

/-- Helper: one merge step never lowers the stored priority at any key. -/
theorem get_mergeStep_mono (m : BotFeedPoll.ResponseMap) (r : AIResponse)
    (k : String) (v : AIResponse) (h : assocGet m k = some v) :
    ∃ w, assocGet (BotFeedPoll.mergeStep m r) k = some w ∧
      BotFeedPoll.STATUS_PRIORITY (some v.status) ≤
        BotFeedPoll.STATUS_PRIORITY (some w.status) := by
  by_cases hk : k = r.id
  · subst hk
    unfold BotFeedPoll.mergeStep
    rw [h]
    exact ⟨BotFeedPoll.mergeRecord v r, assocGet_assocSet_self m r.id _,
      prio_le_mergeRecord v r⟩
  · unfold BotFeedPoll.mergeStep
    cases hget : assocGet m r.id with
    | some existing =>
      refine ⟨v, ?_, le_refl _⟩
      rw [assocGet_assocSet_ne m (BotFeedPoll.mergeRecord existing r) hk]
      exact h
    | none =>
      refine ⟨v, ?_, le_refl _⟩
      rw [assocGet_assocSet_ne m r hk]
      exact h

/-- Helper: the whole second merge phase never lowers the stored
priority at any key. -/
theorem get_foldl_mergeStep_mono (incoming : List AIResponse) :
    ∀ (m : BotFeedPoll.ResponseMap) (k : String) (v : AIResponse),
      assocGet m k = some v →
      ∃ w, assocGet (incoming.foldl BotFeedPoll.mergeStep m) k = some w ∧
        BotFeedPoll.STATUS_PRIORITY (some v.status) ≤
          BotFeedPoll.STATUS_PRIORITY (some w.status) := by
  induction incoming with
  | nil => exact fun m k v h => ⟨v, h, le_refl _⟩
  | cons r rest ih =>
    intro m k v h
    obtain ⟨w1, h1, hle1⟩ := get_mergeStep_mono m r k v h
    obtain ⟨w2, h2, hle2⟩ := ih (BotFeedPoll.mergeStep m r) k w1 h1
    exact ⟨w2, h2, le_trans hle1 hle2⟩

/-- Helper: a merge step always leaves the merged id occupied. -/
theorem get_mergeStep_self_isSome (m : BotFeedPoll.ResponseMap)
    (r : AIResponse) :
    (assocGet (BotFeedPoll.mergeStep m r) r.id).isSome = true := by
  unfold BotFeedPoll.mergeStep
  cases hget : assocGet m r.id with
  | some existing => rw [assocGet_assocSet_self]; rfl
  | none => rw [assocGet_assocSet_self]; rfl

/-- Helper: a merge step leaves other ids untouched. -/
theorem get_mergeStep_ne (m : BotFeedPoll.ResponseMap) (r : AIResponse)
    (k : String) (hk : k ≠ r.id) :
    assocGet (BotFeedPoll.mergeStep m r) k = assocGet m k := by
  unfold BotFeedPoll.mergeStep
  cases hget : assocGet m r.id with
  | some existing => exact assocGet_assocSet_ne m _ hk
  | none => exact assocGet_assocSet_ne m r hk

/-- Helper: the occupied ids after the second merge phase are the
previously occupied ids together with the incoming ids. -/
theorem get_isSome_foldl_mergeStep (incoming : List AIResponse) :
    ∀ (m : BotFeedPoll.ResponseMap) (k : String),
      (assocGet (incoming.foldl BotFeedPoll.mergeStep m) k).isSome = true ↔
        (assocGet m k).isSome = true ∨ k ∈ incoming.map (·.id) := by
  induction incoming with
  | nil => simp
  | cons r rest ih =>
    intro m k
    rw [List.foldl_cons, ih]
    by_cases hk : k = r.id
    · subst hk
      simp [get_mergeStep_self_isSome, List.mem_cons]
    · rw [get_mergeStep_ne m r k hk]
      simp [List.mem_cons, hk]

/-- Helper: the occupied ids after the first merge phase are the
previously occupied ids together with the inserted ids. -/
theorem get_isSome_foldl_insertResponse (prev : List AIResponse) :
    ∀ (m : BotFeedPoll.ResponseMap) (k : String),
      (assocGet (prev.foldl BotFeedPoll.insertResponse m) k).isSome = true ↔
        (assocGet m k).isSome = true ∨ k ∈ prev.map (·.id) := by
  induction prev with
  | nil => simp
  | cons p rest ih =>
    intro m k
    rw [List.foldl_cons, ih]
    by_cases hk : k = p.id
    · subst hk
      have : (assocGet (BotFeedPoll.insertResponse m p) p.id).isSome =
          true := by
        unfold BotFeedPoll.insertResponse
        rw [assocGet_assocSet_self]
        rfl
      simp [this, List.mem_cons]
    · have : assocGet (BotFeedPoll.insertResponse m p) k = assocGet m k :=
        assocGet_assocSet_ne m p hk
      rw [this]
      simp [List.mem_cons, hk]

/-- Helper: an id occurs in a merged list exactly when it occurs on
either side of the merge. -/
theorem mem_ids_mergeResponses (a b : List AIResponse) (x : String) :
    x ∈ (BotFeedPoll.mergeResponses a b).map (·.id) ↔
      x ∈ a.map (·.id) ∨ x ∈ b.map (·.id) := by
  have hinv0 := insertResponse_foldl_invariants a [] (by simp) (by simp)
  have hinv := mergeStep_foldl_invariants b
    (a.foldl BotFeedPoll.insertResponse []) hinv0.1 hinv0.2
  have hperm : ((BotFeedPoll.mergeResponses a b).map (·.id)).Perm
      (((b.foldl BotFeedPoll.mergeStep
        (a.foldl BotFeedPoll.insertResponse [])).map (·.2)).map (·.id)) :=
    (List.mergeSort_perm _ _).map _
  rw [hperm.mem_iff, List.map_map]
  have hvk : (b.foldl BotFeedPoll.mergeStep
      (a.foldl BotFeedPoll.insertResponse [])).map ((·.id) ∘ (·.2)) =
      (b.foldl BotFeedPoll.mergeStep
        (a.foldl BotFeedPoll.insertResponse [])).map (·.1) :=
    List.map_congr_left (fun e he => hinv.2 e he)
  rw [hvk, mem_keys_iff_isSome, get_isSome_foldl_mergeStep,
    get_isSome_foldl_insertResponse]
  simp [assocGet]

/-- C1: the feed's merge step never regresses a stored status: for a
duplicate-free stored list, the record surviving a merge under a given id
has at least the priority of the stored record with that id; an incoming
status of strictly lower priority is dropped by `preferStatus`; and a
record at "failed" stays "failed" under any sequence of "verifying" /
"pending" updates. -/
theorem c1_status_never_regresses :
    (∀ (prev incoming : List AIResponse), (prev.map (·.id)).Nodup →
      ∀ p ∈ prev, ∀ r ∈ BotFeedPoll.mergeResponses prev incoming,
        r.id = p.id →
        BotFeedPoll.STATUS_PRIORITY (some p.status) ≤
          BotFeedPoll.STATUS_PRIORITY (some r.status)) ∧
    (∀ existing incoming : Option AIResponseStatus,
      BotFeedPoll.STATUS_PRIORITY incoming <
        BotFeedPoll.STATUS_PRIORITY existing →
      BotFeedPoll.preferStatus existing incoming = existing) ∧
    (∀ us : List (Option AIResponseStatus),
      (∀ u ∈ us, u = some .verifying ∨ u = some .pending) →
      us.foldl BotFeedPoll.preferStatus (some .failed) = some .failed) := by
  refine ⟨?_, ?_, ?_⟩
  · intro prev incoming hnd p hp r hr hid
    have hinv0 := insertResponse_foldl_invariants prev [] (by simp) (by simp)
    have hinv := mergeStep_foldl_invariants incoming
      (prev.foldl BotFeedPoll.insertResponse []) hinv0.1 hinv0.2
    have hr2 : r ∈ (incoming.foldl BotFeedPoll.mergeStep
        (prev.foldl BotFeedPoll.insertResponse [])).map (·.2) :=
      (List.mergeSort_perm ((incoming.foldl BotFeedPoll.mergeStep
        (prev.foldl BotFeedPoll.insertResponse [])).map (·.2))
        BotFeedPoll.createdAtLe).mem_iff.1 hr
    have hget0 : assocGet (prev.foldl BotFeedPoll.insertResponse [])
        p.id = some p := get_foldl_insertResponse prev [] hnd p hp
    obtain ⟨w, hw, hle⟩ := get_foldl_mergeStep_mono incoming
      (prev.foldl BotFeedPoll.insertResponse []) p.id p hget0
    have hgetr : assocGet (incoming.foldl BotFeedPoll.mergeStep
        (prev.foldl BotFeedPoll.insertResponse [])) r.id = some r :=
      get_of_mem_values _ hinv.1 hinv.2 r hr2
    rw [hid, hw] at hgetr
    injection hgetr with hwr
    rw [← hwr]
    exact hle
  · decide
  · intro us
    induction us with
    | nil => intro _; rfl
    | cons u rest ih =>
      intro h
      have hu := h u (List.mem_cons_self u rest)
      have hfirst : BotFeedPoll.preferStatus (some .failed) u =
          some .failed := by
        rcases hu with h1 | h1 <;> subst h1 <;> decide
      rw [List.foldl_cons, hfirst]
      exact ih (fun v hv => h v (List.mem_cons_of_mem u hv))

/-- C1 witness: merging a stale "pending" copy into a "failed" record
keeps "failed", and the fold over lower-priority updates keeps
"failed". -/
theorem c1_status_never_regresses_witness :
    (BotFeedPoll.STATUS_PRIORITY (some exRecFailed.status) ≤
      BotFeedPoll.STATUS_PRIORITY (some exRecFailed.status)) ∧
    BotFeedPoll.preferStatus (some .failed) (some .verifying) =
      some .failed ∧
    [some .verifying, some .pending].foldl BotFeedPoll.preferStatus
      (some .failed) = some .failed :=
  ⟨c1_status_never_regresses.1 [exRecFailed] [exRecPending] (by decide)
      exRecFailed (by decide) exRecFailed
      ((List.mergeSort_perm _ _).mem_iff.2 (by decide)) (by decide),
   c1_status_never_regresses.2.1 (some .failed) (some .verifying)
      (by decide),
   c1_status_never_regresses.2.2 [some .verifying, some .pending]
      (by decide)⟩

/-- C7: after any merge, the stored ids are pairwise distinct and the
list is sorted ascending by creation time; merging the same incoming
batch a second time leaves the set of stored ids unchanged. -/
theorem c7_merge_nodup_sorted_idempotent (prev incoming : List AIResponse) :
    ((BotFeedPoll.mergeResponses prev incoming).map (·.id)).Nodup ∧
    List.Pairwise (fun a b : AIResponse => a.createdAt ≤ b.createdAt)
      (BotFeedPoll.mergeResponses prev incoming) ∧
    (∀ x, x ∈ (BotFeedPoll.mergeResponses
        (BotFeedPoll.mergeResponses prev incoming) incoming).map (·.id) ↔
      x ∈ (BotFeedPoll.mergeResponses prev incoming).map (·.id)) := by
  refine ⟨?_, ?_, ?_⟩
  · have hinv0 := insertResponse_foldl_invariants prev [] (by simp) (by simp)
    have hinv := mergeStep_foldl_invariants incoming
      (prev.foldl BotFeedPoll.insertResponse []) hinv0.1 hinv0.2
    have hperm : ((BotFeedPoll.mergeResponses prev incoming).map
        (·.id)).Perm
        (((incoming.foldl BotFeedPoll.mergeStep
          (prev.foldl BotFeedPoll.insertResponse [])).map (·.2)).map
            (·.id)) :=
      (List.mergeSort_perm _ _).map _
    refine (hperm.nodup_iff).2 ?_
    rw [List.map_map]
    have hvk : (incoming.foldl BotFeedPoll.mergeStep
        (prev.foldl BotFeedPoll.insertResponse [])).map ((·.id) ∘ (·.2)) =
        (incoming.foldl BotFeedPoll.mergeStep
          (prev.foldl BotFeedPoll.insertResponse [])).map (·.1) :=
      List.map_congr_left (fun e he => hinv.2 e he)
    rw [hvk]
    exact hinv.1
  · have htrans : ∀ a b c : AIResponse,
        BotFeedPoll.createdAtLe a b = true →
        BotFeedPoll.createdAtLe b c = true →
        BotFeedPoll.createdAtLe a c = true := by
      intro a b c hab hbc
      simp only [BotFeedPoll.createdAtLe, decide_eq_true_eq] at *
      omega
    have htotal : ∀ a b : AIResponse,
        (BotFeedPoll.createdAtLe a b || BotFeedPoll.createdAtLe b a) =
          true := by
      intro a b
      simp only [BotFeedPoll.createdAtLe, Bool.or_eq_true,
        decide_eq_true_eq]
      omega
    have hs := List.sorted_mergeSort htrans htotal
      ((incoming.foldl BotFeedPoll.mergeStep
        (prev.foldl BotFeedPoll.insertResponse [])).map (·.2))
    refine List.Pairwise.imp ?_ hs
    intro a b hab
    simpa [BotFeedPoll.createdAtLe] using hab
  · intro x
    simp only [mem_ids_mergeResponses]
    tauto

/-- C7 witness: uniqueness and idempotence of the id set on a concrete
merge. -/
theorem c7_merge_nodup_sorted_idempotent_witness :
    ((BotFeedPoll.mergeResponses [exRecFailed] [exRecPending]).map
      (·.id)).Nodup ∧
    ("r1" ∈ (BotFeedPoll.mergeResponses
        (BotFeedPoll.mergeResponses [exRecFailed] [exRecPending])
        [exRecPending]).map (·.id) ↔
      "r1" ∈ (BotFeedPoll.mergeResponses [exRecFailed]
        [exRecPending]).map (·.id)) :=
  ⟨(c7_merge_nodup_sorted_idempotent [exRecFailed] [exRecPending]).1,
   (c7_merge_nodup_sorted_idempotent [exRecFailed] [exRecPending]).2.2
     "r1"⟩
